import Mathlib

/-!
A shallow embedding of the feedback/convergence core of
`ares/simulations/Global21cm.py` (class `Global21cm`), together with
theorems settling the frozen claims about it.

Numpy arrays are modelled as `List ℚ`; machine floats as exact rationals
(none of the examined control flow depends on rounding).  Fallible numpy
operations (fancy indexing with an index array) are modelled in `Option`.
Python attributes that may be absent (`hasattr` / `delattr` idioms) are
modelled as `Option` fields on an explicit state record, and Python
object identities by numbers (equal number = same object).
-/

namespace Ares

/-! ## Numpy primitives -/

/-- `np.interp x xp fp` for an ascending grid `xp`: clamp to `fp.head` /
`fp.getLast` outside the grid, linear interpolation between bracketing
points inside.  Helper: `x` is known to lie strictly right of `(x0, f0)`.
(Equal consecutive grid points would divide by zero in numpy; the grids in
this development are strictly monotone, where Lean's `q / 0 = 0` is never
exercised.) -/
def npInterpGo (x : ℚ) : ℚ → ℚ → List ℚ → List ℚ → ℚ
  | _, f0, [], _ => f0
  | _, f0, _, [] => f0
  | x0, f0, x1 :: xs, f1 :: fs =>
    if x ≤ x1 then f0 + (f1 - f0) * (x - x0) / (x1 - x0)
    else npInterpGo x x1 f1 xs fs

/-- `np.interp` over an ascending grid (the code always passes grids
reversed into ascending order, `arr[-1::-1]`). -/
def npInterp (x : ℚ) (xp fp : List ℚ) : ℚ :=
  match xp, fp with
  | [], _ => 0
  | _, [] => 0
  | x0 :: xs, f0 :: fs => if x ≤ x0 then f0 else npInterpGo x x0 f0 xs fs

/-- Numpy fancy indexing `l[idx]`: every index must be in range, else the
whole access fails (`IndexError`). -/
def optMap (l : List ℚ) : List ℕ → Option (List ℚ)
  | [] => some []
  | i :: is =>
    match l.get? i with
    | none => none
    | some a =>
      match optMap l is with
      | none => none
      | some r => some (a :: r)

/-- `np.abs`, as an executable function on exact rationals. -/
def qAbs (q : ℚ) : ℚ := if q < 0 then -q else q

/-- `arr.mean()` (empty input is never exercised by the settled claims). -/
def qMean (l : List ℚ) : ℚ := l.sum / l.length

/-- `np.allclose(a, b, rtol, atol)`: elementwise
`|a - b| ≤ atol + rtol * |b|`, true when all elements pass (vacuously
true on empty arrays). -/
def allclose (a b : List ℚ) (rtol atol : ℚ) : Bool :=
  (List.zipWith (fun x y => decide (qAbs (x - y) ≤ atol + rtol * qAbs y)) a b).all id

/-- `np.mean([a, b], axis=0)` (line 351): the elementwise mean of two
stacked arrays. -/
def meanAxis0 (a b : List ℚ) : List ℚ :=
  List.zipWith (fun x y => (x + y) / 2) a b

/-- `np.maximum.accumulate`, running state: `acc` is the maximum of all
entries already passed. -/
def maxAccumFrom (acc : ℚ) : List ℚ → List ℚ
  | [] => []
  | x :: xs => max acc x :: maxAccumFrom (max acc x) xs

/-- `np.maximum.accumulate` (line 370): the running maximum of a
series. -/
def maximumAccumulate : List ℚ → List ℚ
  | [] => []
  | x :: xs => x :: maxAccumFrom x xs

/-! ## `_is_converged` (lines 511–575) -/

/-- The index set the masking in `_is_converged` (line 528) actually
uses for the error comparison: positions `i` of the ascending *newest*
grid `znow = z[-1::-1]` with `znow[i] < 50` (`np.where(ok)`). -/
def convMaskIdx (z_now : List ℚ) : List ℕ :=
  (List.range z_now.reverse.length).filter
    (fun i => z_now.reverse.getD i 0 < 50)

/-- Lines 521–534 of `_is_converged`: reverse the newest and previous
`z` / `dTb` arrays into ascending order, interpolate the newest curve onto
the previous grid, and apply the `znow < 50` index mask to the
previous-grid arrays.  Returns the masked pair
(`dTb_pre[np.where(ok)]`, `dTb_now_interp[np.where(ok)]`), or `none` when
that fancy indexing would raise an `IndexError`. -/
def convMasked (z_now dTb_now z_pre dTb_pre : List ℚ) :
    Option (List ℚ × List ℚ) :=
  let znow := z_now.reverse
  let dnow := dTb_now.reverse
  let zpre := z_pre.reverse
  let dpre := dTb_pre.reverse
  let dnowInterp := zpre.map (fun z => npInterp z znow dnow)
  match optMap dpre (convMaskIdx z_now) with
  | none => none
  | some dpreM =>
    match optMap dnowInterp (convMaskIdx z_now) with
    | none => none
    | some dnowM => some (dpreM, dnowM)

/-- `Global21cm._is_converged`, lines 511–575.  Inputs: the current
iteration count (`self.count`), `feedback_maxiter`, the
`feedback_LW_mean_err` flag, `feedback_LW_rtol` / `feedback_LW_atol`, the
newest history's `z` / `dTb` arrays and the previous iteration's
(`self._suite[-2]`) `z` / `dTb` arrays, all in the natural
descending-redshift order of a history.  The `debug` branch only prints
and is omitted. -/
def isConverged (count maxiter : ℕ) (meanErr : Bool) (rtol atol : ℚ)
    (z_now dTb_now z_pre dTb_pre : List ℚ) : Option Bool :=
  if count = 1 then some false
  else
    match convMasked z_now dTb_now z_pre dTb_pre with
    | none => none
    | some (dpreM, dnowM) =>
      let errRel := List.zipWith (fun a b => qAbs ((a - b) / a)) dnowM dpreM
      let errAbs := List.zipWith (fun a b => qAbs (a - b)) dnowM dpreM
      if maxiter ≤ count then some true
      else
        if meanErr then
          let atolCheck : Bool := 0 < atol ∧ qMean errAbs < atol
          if 0 < rtol then
            if rtol < qMean errRel then some false
            else if qMean errRel < rtol ∧ atol = 0 then some true
            else some atolCheck
          else some atolCheck
        else if allclose dpreM dnowM rtol atol then some true
        else some false

/-- The masked absolute-error array `err_abs` of `_is_converged` as the
code computes it (mask from the newest grid, data from the previous
grid). -/
def convErrAbs (z_now dTb_now z_pre dTb_pre : List ℚ) : Option (List ℚ) :=
  (convMasked z_now dTb_now z_pre dTb_pre).map
    (fun p => List.zipWith (fun a b => qAbs (a - b)) p.2 p.1)

/-- The index set claim C4 describes: positions of the ascending
*previous* grid whose own redshift is below 50. -/
def specMaskIdx (z_pre : List ℚ) : List ℕ :=
  (List.range z_pre.reverse.length).filter
    (fun i => z_pre.reverse.getD i 0 < 50)

/-- The masked absolute-error array as claim C4 states it: restricted to
the previous-grid points whose own redshift is below 50. -/
def specErrAbs (z_now dTb_now z_pre dTb_pre : List ℚ) : Option (List ℚ) :=
  let znow := z_now.reverse
  let dnow := dTb_now.reverse
  let zpre := z_pre.reverse
  let dpre := dTb_pre.reverse
  let dnowInterp := zpre.map (fun z => npInterp z znow dnow)
  match optMap dpre (specMaskIdx z_pre) with
  | none => none
  | some dpreM =>
    match optMap dnowInterp (specMaskIdx z_pre) with
    | none => none
    | some dnowM => some (List.zipWith (fun a b => qAbs (a - b)) dnowM dpreM)

/-! ## The `Mmin(z)` update of the feedback block in `run()` (lines 311–381) -/

/-- Lines 344–353: the pre-ceiling Mmin update.  `count` is `self.count`
(already incremented for the finishing iteration), `fM` the raw
mass-estimate formula `f_M` (named `visbal2015` formula or a user
function — kept abstract, the claims quantify over it), `ztmp` the
current iteration's redshift grid (`self.history['z']`, descending),
`prev_z` / `prev_M` the previous iteration record's `'z'` and Mmin
arrays from `self._suite[-1]` (descending; the code reverses them for
`np.interp`). -/
def mminNext (count : ℕ) (fM : ℚ → ℚ) (ztmp prev_z prev_M : List ℚ) :
    List ℚ :=
  if 1 < count then
    let mminPrev := ztmp.map (fun z => npInterp z prev_z.reverse prev_M.reverse)
    meanAxis0 (ztmp.map fM) mminPrev
  else ztmp.map fM

/-- Lines 359–370: clip the pre-ceiling update against the
virial-temperature ceiling `Mmin_ceil` (`np.minimum`, line 367) and, when
`feedback_LW_Mmin_uponly` is set, impose the monotonic running-maximum
floor.  This is the series recorded in the iteration record
(line 380). -/
def mminFinal (uponly : Bool) (mnext ceil : List ℚ) : List ℚ :=
  let m := List.zipWith min mnext ceil
  if uponly then maximumAccumulate m else m

/-! ## Self-shielding selection in the feedback block (lines 311–330) -/

/-- The `feedback_LW_fsh` parameter: `None`, a user-supplied function,
or any other non-None value (e.g. `True`) meant to switch the power-law
column-density correction on. -/
inductive FshCfg where
  | noCfg
  | func (f : ℚ → ℚ)
  | flag

/-- `self.pf['feedback_LW_fsh'] is not None` (line 311). -/
def fshIsNotNone : FshCfg → Bool
  | .noCfg => false
  | _ => true

/-- `type(self.pf['feedback_LW_fsh']) is FunctionType` (line 327). -/
def fshIsFunction : FshCfg → Bool
  | .func _ => true
  | _ => false

/-- The user-supplied function carried by the parameter (arbitrary when
the parameter is not a function; never read in that case). -/
def fshUserFun : FshCfg → (ℚ → ℚ)
  | .func f => f
  | _ => fun _ => 1

/-- Lines 311–330: selection of the self-shielding correction `f_sh`.
`powerLaw` stands for the column-density power-law correction
`np.minimum(1, (NH2(z, Mh=Mmin(z)) / 1e14)**-0.75)` defined in the first
branch (its numeric body involves irrational powers and is kept
abstract; the claim is about which function is selected).  The branch
order is exactly that of the source: `if ... is not None` /
`elif type(...) is FunctionType` / `else`. -/
def selectFsh (cfg : FshCfg) (powerLaw : ℚ → ℚ) : ℚ → ℚ :=
  if fshIsNotNone cfg then powerLaw
  else if fshIsFunction cfg then fshUserFun cfg
  else fun _ => 1

/-! ## Flux accumulation in `step()` (lines 444–496) -/

/-- Modelled from the spec: the Lyman-alpha line energy `E_LyA`
(`ares.physics.Constants` is outside this module); 10.2 eV. -/
def energyLyA : ℚ := 102 / 10

/-- One entry of `self.medium.field.bands_by_pop[i]` together with the
line fluxes `this_Ja` / `this_Jlw` this step obtains for it (whether
from the precomputed interpolants of `compute_fluxes_at_start` or from
`update_Jlw`; the claim does not distinguish the two). -/
structure Band where
  E0 : ℚ
  E1 : ℚ
  Ja : ℚ
  Jlw : ℚ

/-- The per-population data `step()` consults when accumulating fluxes:
`pop.is_lya_src`, `np.any(self.medium.field.solve_rte[i])`, the
closed-form `LymanAlphaFlux` / `LymanWernerFlux` estimates at the
current redshift, and the band table. -/
structure StepPop where
  is_lya_src : Bool
  solve_rte : Bool
  JaCF : ℚ
  JlwCF : ℚ
  bands : List Band

/-- Lines 447–475, the `Jlw` accumulation of one inner step.
`feedbackOn` is `self.pf['feedback_LW_Mmin'] is not None`.  Populations
that are not Lyman-alpha sources are skipped; a population not requiring
radiative transfer contributes its closed-form `LymanWernerFlux` only
when feedback is configured (line 455); a population requiring radiative
transfer contributes the table flux of every band containing the
Lyman-alpha line (`E0 <= E_LyA < E1`, line 462). -/
def popJlwContrib (feedbackOn : Bool) (p : StepPop) : ℚ :=
  if ¬ p.is_lya_src then 0
  else if ¬ p.solve_rte then (if feedbackOn then p.JlwCF else 0)
  else ((p.bands.filter
    (fun b => b.E0 ≤ energyLyA ∧ energyLyA < b.E1)).map Band.Jlw).sum

/-- The total `Jlw` attached to the igm-state on one step (initialised
to `0.0` and summed over the population loop). -/
def stepJlw (feedbackOn : Bool) (pops : List StepPop) : ℚ :=
  (pops.map (popJlwContrib feedbackOn)).sum

/-- Claim C7's description of one population's contribution: every
Lyman-alpha-source population contributes — closed form when it needs no
radiative transfer, the flux of the band containing the Lyman-alpha line
otherwise — with no condition on the feedback configuration. -/
def specJlwContrib (p : StepPop) : ℚ :=
  if ¬ p.is_lya_src then 0
  else if ¬ p.solve_rte then p.JlwCF
  else ((p.bands.filter
    (fun b => b.E0 ≤ energyLyA ∧ energyLyA < b.E1)).map Band.Jlw).sum

/-- Claim C7's description of the per-step `Jlw` sum. -/
def specJlwSum (pops : List StepPop) : ℚ := (pops.map specJlwContrib).sum

/-! ## Object state: `__init__`, `run()` entry, `reboot()`,
`carryover_kwargs` (lines 36–61, 201–221, 393–426) -/

/-- Keys of the carryover mapping built by `carryover_kwargs`:
`'tau_instance'`, `'pop_psm_instance{i}'`, `'hmf_instance'`. -/
inductive CKey where
  | tau
  | psm (i : ℕ)
  | hmf
deriving DecidableEq

/-- The sub-objects of one population that `carryover_kwargs` inspects:
`pop.sed_tab`, and the object identities of `pop.src` and
`pop.halos`. -/
structure PopInst where
  sed_tab : Bool
  src : ℕ
  halos : ℕ

/-- The parts of the `MultiPhaseMedium` instance that `carryover_kwargs`
reads: whether `self.medium.field` has a `tau` attribute, the
`_tau_solver` identity, and the population list. -/
structure Medium where
  hasTau : Bool
  tauSolver : ℕ
  pops : List PopInst

/-- Lines 410–424: build the carryover mapping from the current medium:
the opacity-solver instance (if radiative-transfer tables are
configured), one spectral-model instance per `sed_tab` population, and
the halo-mass-function table of population 0. -/
def buildCarryover (m : Medium) : List (CKey × ℕ) :=
  (if m.hasTau then [(CKey.tau, m.tauSolver)] else []) ++
  (m.pops.enum.flatMap (fun ip =>
    (if ip.2.sed_tab then [(CKey.psm ip.1, ip.2.src)] else []) ++
    (if ip.1 = 0 then [(CKey.hmf, ip.2.halos)] else [])))

/-- Python `dict.update`: keys of `new` overwrite, the rest of `kw` is
kept. -/
def dictUpdate (kw new : List (CKey × ℕ)) : List (CKey × ℕ) :=
  kw.filter (fun p => ¬ (new.map Prod.fst).contains p.1) ++ new

/-- The attributes of a `Global21cm` object that the claims consult.
`Option` fields model Python attributes that can be absent
(`hasattr` / `delattr`); instance identities are numbers.  `kwargs`
models the carryover-relevant part of `self.kwargs` (the
`defaults` / `problem_type` keys that `__init__` re-adds on every call
lie outside this mapping and are idempotent). -/
structure G21 where
  is_phenom : Bool
  pf : Option (List (CKey × ℕ))
  medium : Option Medium
  history : Option ℕ
  suite : Option (List ℕ)
  count : ℕ
  timer : ℚ
  carryover : Option (List (CKey × ℕ))
  kwargs : List (CKey × ℕ)

/-- `__init__` (lines 36–61) on a non-phenom object (also the reboot
path): `_check_if_phenom` leaves such an object untouched, the `verbose`
check touches `self.pf` (memoizing a fresh `ParameterFile` snapshot
built from the current kwargs), and `_suite` is created — empty — only
when the attribute is absent.  `_count`, `_timer`, `_carryover_kwargs`
are untouched. -/
def initG21 (s : G21) : G21 :=
  { s with pf := some s.kwargs, suite := some (s.suite.getD []) }

/-- The `carryover_kwargs` property (lines 405–426): memoized; built
from the current medium on first access.  At every use in `reboot()` the
medium of the just-finished iteration is present; an absent medium is
modelled as failure (Python would lazily rebuild one there). -/
def carryoverKwargsGet (s : G21) : Option (List (CKey × ℕ) × G21) :=
  match s.carryover with
  | some c => some (c, s)
  | none =>
    match s.medium with
    | some m =>
      let c := buildCarryover m
      some (c, { s with carryover := some c })
    | none => none

/-- `reboot()` (lines 393–403): merge the carryover kwargs into
`self.kwargs` only when `count == 1`, delete `_pf`, `_medium`,
`_history` (deleting an absent attribute raises `AttributeError`,
modelled as `none`), then re-run `__init__` on the same object. -/
def reboot (s : G21) : Option G21 :=
  match (if s.count = 1 then
      (carryoverKwargsGet s).map
        (fun cs => { cs.2 with kwargs := dictUpdate cs.2.kwargs cs.1 })
    else some s) with
  | none => none
  | some s1 =>
    if s1.pf.isSome ∧ s1.medium.isSome ∧ s1.history.isSome then
      some (initG21 { s1 with pf := none, medium := none, history := none })
    else none

/-- The branch `run()` takes on entry (lines 211–221). -/
inductive RunPath where
  | phenomDone
  | earlyReturn
  | rebootThenRun
  | freshRun
deriving DecidableEq

/-- Lines 211–221 of `run()`: the phenomenological shortcut returns at
once; the early return requires a finished history AND an absent
`_suite` attribute; a present non-empty suite triggers a reboot before
stepping; otherwise the stepping loop runs directly.  Both of the last
two paths re-execute the full stepping loop and rebuild the history. -/
def runPath (s : G21) : RunPath :=
  if s.is_phenom then .phenomDone
  else if s.history.isSome ∧ s.suite.isNone then .earlyReturn
  else if (s.suite.getD []) ≠ [] then .rebootThenRun
  else .freshRun

/-- The state of a `Global21cm` object that has completed one `run()`
without feedback: a finished history is set (identity 1), the suite
created by `__init__` is still the empty list, one iteration counted,
and nothing memoized beyond the parameter file and medium. -/
def postFirstRun : G21 :=
  { is_phenom := false
    pf := some []
    medium := some ⟨false, 0, []⟩
    history := some 1
    suite := some []
    count := 1
    timer := 0
    carryover := none
    kwargs := [] }

/-! ## `save` (lines 577–687) -/

/-- The `suffix` argument of `save`; anything not listed is treated as
ASCII by the source. -/
inductive Suffix where
  | pkl
  | hdf5
  | h5
  | npz
  | ascii
deriving DecidableEq

/-- The exceptions `save` can raise before completing: the
history-file overwrite `IOError` (line 604) and the
multi-iteration-suite / non-pkl error (line 608). -/
inductive SaveErr where
  | ioError
  | notImpl
deriving DecidableEq

/-- The two files `save(prefix, suffix, clobber)` manages:
`prefix.history.suffix` and `prefix.parameters.pkl`; `none` = file does
not exist, `some d` = file with content identity `d`. -/
structure FS where
  hist : Option ℕ
  params : Option ℕ
deriving DecidableEq

/-- `save(prefix, suffix='pkl', clobber=False)`, lines 577–687: returns
the file system after the call and the exception raised, if any.
Content written is abstracted to identities `histData` / `pfData`; once
past the suite/suffix guard, all format branches write the history file
(the optional blobs output concerns a third file no claim mentions and
is omitted).  Order as in the source: history-file clobber check, then
the suite/suffix guard, then the history write, then the parameters-file
block with its `write_pf` flag. -/
def save (clobber suiteNonempty : Bool) (sfx : Suffix)
    (histData pfData : ℕ) (fs : FS) : FS × Option SaveErr :=
  if fs.hist.isSome ∧ ¬ clobber then (fs, some SaveErr.ioError)
  else
    let fs1 : FS := if fs.hist.isSome then { fs with hist := none } else fs
    if suiteNonempty ∧ sfx ≠ Suffix.pkl then (fs1, some SaveErr.notImpl)
    else
      let fs2 : FS := { fs1 with hist := some histData }
      let fs3 : FS :=
        if fs2.params.isSome then
          if clobber then { fs2 with params := some pfData } else fs2
        else { fs2 with params := some pfData }
      (fs3, none)

/-! ## Lemmas and claim theorems -/

lemma qAbs_eq_abs (q : ℚ) : qAbs q = |q| := by
  rw [qAbs, abs]
  rcases lt_trichotomy q 0 with h | h | h
  · rw [if_pos h]; exact (max_eq_right (by linarith)).symm
  · simp [h]
  · rw [if_neg (by linarith)]; exact (max_eq_left (by linarith)).symm

lemma optMap_eq_some_of_lt (l : List ℚ) (idx : List ℕ)
    (h : ∀ i ∈ idx, i < l.length) :
    optMap l idx = some (idx.map (fun i => l.getD i 0)) := by
  induction idx with
  | nil => rfl
  | cons i is ih =>
    have hi : i < l.length := h i (by simp)
    have his : ∀ j ∈ is, j < l.length := fun j hj => h j (by simp [hj])
    have hget : l[i]? = some (l.getD i 0) := by
      have he := List.getElem?_eq_getElem hi
      simp [List.getD_eq_getElem?_getD, he]
    simp only [optMap, List.get?_eq_getElem?, hget, ih his, List.map_cons]

lemma convMaskIdx_mem_lt (z_now : List ℚ) :
    ∀ i ∈ convMaskIdx z_now, i < z_now.length := by
  intro i hi
  have h := (List.mem_filter.mp hi).1
  simpa using List.mem_range.mp h

lemma convMasked_eq_some (z_now dTb_now z_pre dTb_pre : List ℚ)
    (hl1 : z_now.length ≤ dTb_pre.length)
    (hl2 : z_now.length ≤ z_pre.length) :
    convMasked z_now dTb_now z_pre dTb_pre =
      some ((convMaskIdx z_now).map (fun i => dTb_pre.reverse.getD i 0),
            (convMaskIdx z_now).map (fun i =>
              (z_pre.reverse.map
                (fun z => npInterp z z_now.reverse dTb_now.reverse)).getD i 0)) := by
  have h1 : ∀ i ∈ convMaskIdx z_now, i < dTb_pre.reverse.length := by
    intro i hi
    have := convMaskIdx_mem_lt z_now i hi
    simp only [List.length_reverse]
    omega
  have h2 : ∀ i ∈ convMaskIdx z_now,
      i < (z_pre.reverse.map
        (fun z => npInterp z z_now.reverse dTb_now.reverse)).length := by
    intro i hi
    have := convMaskIdx_mem_lt z_now i hi
    simp only [List.length_map, List.length_reverse]
    omega
  simp only [convMasked, optMap_eq_some_of_lt _ _ h1, optMap_eq_some_of_lt _ _ h2]

lemma getD_map_of_lt (l : List ℚ) (f : ℚ → ℚ) (i : ℕ) (hi : i < l.length) :
    (l.map f).getD i 0 = f (l.getD i 0) := by
  have he := List.getElem?_eq_getElem hi
  have he2 : (l.map f)[i]? = some (f l[i]) := by
    simp [List.getElem?_map, he]
  simp [List.getD_eq_getElem?_getD, he, he2]

lemma zipWith_map_same {α : Type} (f : ℚ → ℚ → ℚ) (g h : α → ℚ) (l : List α) :
    List.zipWith f (l.map g) (l.map h) = l.map (fun i => f (g i) (h i)) := by
  induction l with
  | nil => rfl
  | cons a t ih => simp [ih]

/-- C1 (amended): once the iteration count is at least 2 *and* at least
`feedback_maxiter`, `_is_converged` returns `True` whatever the grids,
curves, tolerances and mean-error policy are — the errors between the
curves are computed but never consulted.  (The length hypotheses say the
fancy indexing of lines 533–534 does not raise; the newest grid is never
longer than the previous one in that case.) -/
theorem maxiter_reached_forces_convergence
    (count maxiter : ℕ) (meanErr : Bool) (rtol atol : ℚ)
    (z_now dTb_now z_pre dTb_pre : List ℚ)
    (h2 : 2 ≤ count) (hm : maxiter ≤ count)
    (hl1 : z_now.length ≤ dTb_pre.length)
    (hl2 : z_now.length ≤ z_pre.length) :
    isConverged count maxiter meanErr rtol atol z_now dTb_now z_pre dTb_pre
      = some true := by
  have hc1 : ¬ (count = 1) := by omega
  rw [isConverged, if_neg hc1,
    convMasked_eq_some z_now dTb_now z_pre dTb_pre hl1 hl2]
  simp [hm]

/-- C1 witness: at iteration 2 with `feedback_maxiter = 2` the check
returns `True` although the curves disagree by 500 mK everywhere. -/
theorem maxiter_reached_witness :
    isConverged 2 2 false (1/1000) 0 [40, 30] [0, 0] [40, 30] [500, 500]
      = some true :=
  maxiter_reached_forces_convergence 2 2 false (1/1000) 0 [40, 30] [0, 0]
    [40, 30] [500, 500] (by norm_num) (by norm_num) (by simp) (by simp)

/-- C1 counterexample: with `feedback_maxiter = 1` the first call to
`_is_converged` has `count = 1 ≥ maxiter`, yet it returns `False` (the
`count == 1` early return precedes the `count >= maxiter` test), even
though the two stored curves disagree by 100 mK everywhere. -/
theorem maxiter_at_count_one_not_converged :
    (1:ℕ) ≥ 1 ∧
    isConverged 1 1 false (1/100) 0 [60, 55] [0, 0] [60, 55] [100, 100]
      = some false := by
  exact ⟨le_refl 1, rfl⟩

/-- C4 (amended): the error arrays of `_is_converged` are computed over
exactly those positions `i` (grids taken in ascending order) whose
*newest*-grid redshift `znow[i]` is below 50, comparing the
previous-curve value and the interpolated-newest value at position `i`
of the *previous* grid. -/
theorem convErrAbs_mask_from_new_grid
    (z_now dTb_now z_pre dTb_pre : List ℚ)
    (hl1 : z_now.length ≤ dTb_pre.length)
    (hl2 : z_now.length ≤ z_pre.length) :
    convErrAbs z_now dTb_now z_pre dTb_pre =
      some ((convMaskIdx z_now).map (fun i =>
        qAbs (npInterp (z_pre.reverse.getD i 0) z_now.reverse dTb_now.reverse -
          dTb_pre.reverse.getD i 0))) := by
  rw [convErrAbs, convMasked_eq_some z_now dTb_now z_pre dTb_pre hl1 hl2]
  simp only [Option.map_some', zipWith_map_same]
  congr 1
  apply List.map_congr_left
  intro i hi
  have h1 : i < z_pre.reverse.length := by
    have := convMaskIdx_mem_lt z_now i hi
    simp only [List.length_reverse]
    omega
  rw [getD_map_of_lt _ _ _ h1]

/-- C4 witness: on a two-point example with newest grid (45, 60) and
previous grid (42, 55), the single retained error compares the previous
curve with the interpolated newest curve, `|2 - 9| = 7`. -/
theorem convErrAbs_mask_witness :
    convErrAbs [60, 45] [2, 2] [55, 42] [9, 9] = some [7] := by
  have h := convErrAbs_mask_from_new_grid [60, 45] [2, 2] [55, 42] [9, 9]
    (by simp) (by simp)
  rw [h]
  norm_num [convMaskIdx, List.filter, List.range, List.range.loop,
    npInterp, npInterpGo, qAbs]

/-- C4 counterexample: with a newest grid entirely at `z ≥ 50` and a
previous grid entirely at `z < 50`, the code's masked error array is
empty while the claimed previous-grid restriction would retain both
points with error 6: the mask is computed from the newest grid, not the
previous one. -/
theorem convErrAbs_not_prev_grid_mask :
    convErrAbs [60, 55] [1, 1] [40, 30] [7, 7] = some [] ∧
    specErrAbs [60, 55] [1, 1] [40, 30] [7, 7] = some [6, 6] ∧
    convErrAbs [60, 55] [1, 1] [40, 30] [7, 7] ≠
      specErrAbs [60, 55] [1, 1] [40, 30] [7, 7] := by
  have h1 : convErrAbs [60, 55] [1, 1] [40, 30] [7, 7] = some [] := by
    norm_num [convErrAbs, convMasked, convMaskIdx, optMap,
      List.filter, List.range, List.range.loop, npInterp, npInterpGo, qAbs]
  have h2 : specErrAbs [60, 55] [1, 1] [40, 30] [7, 7] = some [6, 6] := by
    norm_num [specErrAbs, specMaskIdx, optMap,
      List.filter, List.range, List.range.loop, npInterp, npInterpGo, qAbs]
  refine ⟨h1, h2, ?_⟩
  rw [h1, h2]
  simp

lemma maxAccumFrom_length (acc : ℚ) (m : List ℚ) :
    (maxAccumFrom acc m).length = m.length := by
  induction m generalizing acc with
  | nil => rfl
  | cons x xs ih => simp [maxAccumFrom, ih]

lemma maximumAccumulate_length (m : List ℚ) :
    (maximumAccumulate m).length = m.length := by
  cases m with
  | nil => rfl
  | cons x xs => simp [maximumAccumulate, maxAccumFrom_length]

lemma maximumAccumulate_cons_eq (x : ℚ) (xs : List ℚ) :
    maximumAccumulate (x :: xs) = maxAccumFrom x (x :: xs) := by
  simp [maximumAccumulate, maxAccumFrom, max_self]

lemma zipWith_min_getD_le (a b : List ℚ) :
    ∀ i, i < (List.zipWith min a b).length →
      (List.zipWith min a b).getD i 0 ≤ b.getD i 0 := by
  induction a generalizing b with
  | nil => intro i hi; simp at hi
  | cons x xs ih =>
    cases b with
    | nil => intro i hi; simp at hi
    | cons y ys =>
      intro i hi
      cases i with
      | zero =>
        simp only [List.zipWith_cons_cons, List.getD_cons_zero]
        exact min_le_right x y
      | succ n =>
        simp only [List.zipWith_cons_cons, List.getD_cons_succ]
        exact ih ys n (by simpa using hi)

lemma maxAccumFrom_getD_le (m : List ℚ) :
    ∀ (c : List ℚ) (acc : ℚ),
      m.length ≤ c.length →
      (∀ i, i < m.length → m.getD i 0 ≤ c.getD i 0) →
      List.Chain' (· ≤ ·) c →
      (∀ x ∈ c.head?, acc ≤ x) →
      ∀ i, i < m.length → (maxAccumFrom acc m).getD i 0 ≤ c.getD i 0 := by
  induction m with
  | nil => intro c acc _ _ _ _ i hi; simp at hi
  | cons x xs ih =>
    intro c acc hlen hpt hchain hhead i hi
    cases c with
    | nil => simp at hlen
    | cons c0 cs =>
      have hacc : acc ≤ c0 := hhead c0 rfl
      have hx : x ≤ c0 := by simpa [List.getD_cons_zero] using hpt 0 (by simp)
      cases i with
      | zero =>
        simpa [maxAccumFrom, List.getD_cons_zero] using max_le hacc hx
      | succ n =>
        have hchain' : List.Chain' (· ≤ ·) cs := hchain.tail
        have hhead' : ∀ y ∈ cs.head?, max acc x ≤ y := by
          intro y hy
          have hc0y : c0 ≤ y := by
            cases cs with
            | nil => simp at hy
            | cons c1 cs' =>
              have hcc := (List.chain'_cons.mp hchain).1
              simp only [List.head?_cons, Option.mem_def, Option.some.injEq] at hy
              subst hy
              exact hcc
          exact le_trans (max_le hacc hx) hc0y
        have hpt' : ∀ j, j < xs.length → xs.getD j 0 ≤ cs.getD j 0 := by
          intro j hj
          simpa [List.getD_cons_succ] using hpt (j + 1) (by simpa using hj)
        simp only [maxAccumFrom, List.getD_cons_succ]
        exact ih cs (max acc x) (by simpa using hlen) hpt' hchain' hhead' n
          (by simpa using hi)

lemma maximumAccumulate_getD_le (m c : List ℚ)
    (hlen : m.length ≤ c.length)
    (hpt : ∀ i, i < m.length → m.getD i 0 ≤ c.getD i 0)
    (hchain : List.Chain' (· ≤ ·) c) :
    ∀ i, i < m.length → (maximumAccumulate m).getD i 0 ≤ c.getD i 0 := by
  cases m with
  | nil => intro i hi; simp at hi
  | cons x xs =>
    intro i hi
    rw [maximumAccumulate_cons_eq]
    have hhead : ∀ y ∈ c.head?, x ≤ y := by
      intro y hy
      cases c with
      | nil => simp at hy
      | cons c0 cs =>
        simp only [List.head?_cons, Option.mem_def, Option.some.injEq] at hy
        subst hy
        simpa [List.getD_cons_zero] using hpt 0 (by simp)
    exact maxAccumFrom_getD_le (x :: xs) c x hlen hpt hchain hhead i hi

/-- C3: the final `Mmin(z)` series recorded for an iteration never
exceeds the virial-temperature ceiling `Mmin_ceil(z)` pointwise, whether
or not the `feedback_LW_Mmin_uponly` running-maximum floor is enabled.
The hypothesis `hchain` states that the ceiling array is nondecreasing
along the grid; this holds for the actual ceiling because the grid
`ztmp` is strictly decreasing in redshift (history invariant) and the
virial mass at fixed virial temperature `Tcut` decreases with increasing
redshift (`pop.halos.VirialMass`, outside this module). -/
theorem mmin_le_ceiling (uponly : Bool) (mnext ceil : List ℚ)
    (hchain : List.Chain' (· ≤ ·) ceil) :
    ∀ i, i < (mminFinal uponly mnext ceil).length →
      (mminFinal uponly mnext ceil).getD i 0 ≤ ceil.getD i 0 := by
  intro i hi
  rw [mminFinal] at hi ⊢
  cases uponly with
  | false =>
    rw [if_neg (by simp)] at hi ⊢
    exact zipWith_min_getD_le mnext ceil i hi
  | true =>
    rw [if_pos rfl] at hi ⊢
    have hlen : (List.zipWith min mnext ceil).length ≤ ceil.length := by
      simp [List.length_zipWith]
    have hi' : i < (List.zipWith min mnext ceil).length := by
      rwa [maximumAccumulate_length] at hi
    exact maximumAccumulate_getD_le _ ceil hlen
      (zipWith_min_getD_le mnext ceil) hchain i hi'

/-- C3 witness: with the running-maximum floor enabled, the recorded
series is `[8, 8]` (the second entry raised to 8 by the accumulate from
the clipped `[8, 5]`) and still sits below the ceiling `[8, 9]`. -/
theorem mmin_le_ceiling_witness :
    (mminFinal true [100, 5] [8, 9]).getD 1 0 ≤ ([8, 9] : List ℚ).getD 1 0 ∧
    (mminFinal true [100, 5] [8, 9]).getD 1 0 = 8 := by
  constructor
  · exact mmin_le_ceiling true [100, 5] [8, 9]
      (by norm_num [List.chain'_cons]) 1
      (by norm_num [mminFinal, maximumAccumulate, maxAccumFrom,
        maxAccumFrom_length])
  · norm_num [mminFinal, maximumAccumulate, maxAccumFrom]

/-- C5: from the second outer iteration onward (`self.count > 1`) the
pre-ceiling Mmin update is, at every grid point, the mean of the raw
estimate `f_M(z)` and the previous iteration's `Mmin` interpolated onto
the current grid; at `count = 1` it is the raw estimate unchanged. -/
theorem mmin_damping (fM : ℚ → ℚ) (ztmp prev_z prev_M : List ℚ) :
    (∀ count : ℕ, 2 ≤ count → ∀ i, i < ztmp.length →
      (mminNext count fM ztmp prev_z prev_M).getD i 0 =
        (fM (ztmp.getD i 0)
          + npInterp (ztmp.getD i 0) prev_z.reverse prev_M.reverse) / 2) ∧
    mminNext 1 fM ztmp prev_z prev_M = ztmp.map fM := by
  constructor
  · intro count hc i hi
    rw [mminNext, if_pos (by omega)]
    simp only [meanAxis0, zipWith_map_same]
    exact getD_map_of_lt ztmp _ i hi
  · rfl

/-- C5 witness: at iteration 2 on a one-point grid, the damped update is
the mean `((10 + 2) + 15) / 2 = 27/2` of the raw estimate and the
interpolated previous `Mmin`. -/
theorem mmin_damping_witness :
    (mminNext 2 (fun z => z + 2) [10] [12, 8] [20, 10]).getD 0 0 = 27 / 2 := by
  have h := (mmin_damping (fun z => z + 2) [10] [12, 8] [20, 10]).1 2
    (le_refl 2) 0 (by simp)
  rw [h]
  norm_num [npInterp, npInterpGo]

/-- C6: a user-supplied `feedback_LW_fsh` function is a non-None value,
so the first branch of lines 311–330 wins and the power-law correction
is selected; the `elif type(...) is FunctionType` branch is unreachable
and the user's function is ignored.  Only the absent (`None`)
configuration yields the identity `f_sh ≡ 1`.  The last conjunct
evaluates the failing input: the user configures `f ≡ 0` and gets the
power law's value `1/2` instead of `0`. -/
theorem user_fsh_function_ignored :
    (∀ powerLaw f : ℚ → ℚ, selectFsh (FshCfg.func f) powerLaw = powerLaw) ∧
    (∀ powerLaw : ℚ → ℚ, selectFsh FshCfg.noCfg powerLaw = fun _ => 1) ∧
    selectFsh (FshCfg.func (fun _ => 0)) (fun _ => 1/2) 3 = 1/2 := by
  exact ⟨fun _ _ => rfl, fun _ => rfl, rfl⟩

/-- C7 (amended): when `feedback_LW_Mmin` is configured, the per-step
`Jlw` equals the sum over all Lyman-alpha-source populations of their
Lyman-Werner flux — closed-form for populations not requiring radiative
transfer, per-band table flux (bands containing the Lyman-alpha line)
for those that do.  Without feedback configured the closed-form
contributions are skipped (see the counterexample). -/
theorem jlw_sum_with_feedback (pops : List StepPop) :
    stepJlw true pops = specJlwSum pops := by
  have hfun : popJlwContrib true = specJlwContrib := by
    funext p
    rcases p with ⟨lya, rte, ja, jlw, bands⟩
    cases lya <;> cases rte <;> simp [popJlwContrib, specJlwContrib]
  rw [stepJlw, specJlwSum, hfun]

/-- C7 counterexample: a single Lyman-alpha-source population not
requiring radiative transfer, with closed-form Lyman-Werner flux 5.
With `feedback_LW_Mmin = None` the step attaches `Jlw = 0`, not the
claimed sum 5 (line 455 guards the closed-form `LymanWernerFlux` call on
the feedback configuration). -/
theorem jlw_dropped_without_feedback :
    stepJlw false [⟨true, false, 1, 5, []⟩] = 0 ∧
    specJlwSum [⟨true, false, 1, 5, []⟩] = 5 ∧
    stepJlw false [⟨true, false, 1, 5, []⟩] ≠
      specJlwSum [⟨true, false, 1, 5, []⟩] := by
  have h1 : stepJlw false [⟨true, false, 1, 5, []⟩] = 0 := by
    norm_num [stepJlw, popJlwContrib]
  have h2 : specJlwSum [⟨true, false, 1, 5, []⟩] = 5 := by
    norm_num [specJlwSum, specJlwContrib]
  refine ⟨h1, h2, ?_⟩
  rw [h1, h2]
  norm_num

/-- C2: the early return of `run()` (lines 216–217) requires the
`_suite` attribute to be absent, but `__init__` (lines 60–61)
unconditionally creates `_suite` on every construction — so after a
completed non-feedback run the second `run()` call takes the full
stepping path (`freshRun`), not the early return: it is not a no-op. -/
theorem second_run_reenters_stepping :
    runPath postFirstRun = RunPath.freshRun ∧
    RunPath.freshRun ≠ RunPath.earlyReturn ∧
    (∀ s : G21, ((initG21 s).suite).isSome = true) := by
  exact ⟨rfl, by decide, fun s => rfl⟩

/-- C8: `reboot()` discards exactly the parameter-file snapshot, the
medium and the history (the snapshot being rebuilt from the current
kwargs by the `__init__` it triggers), and leaves the carryover cache,
the suite, the iteration count and the timer untouched — the carryover
entries are the same instances; the carryover kwargs are merged into
the configuration exactly when `count = 1`, i.e. on the reboot after
iteration 1. -/
theorem reboot_frame (s : G21) (c : List (CKey × ℕ)) (l : List ℕ)
    (p : List (CKey × ℕ)) (m : Medium) (h : ℕ)
    (hc : s.carryover = some c) (hp : s.pf = some p)
    (hm : s.medium = some m) (hh : s.history = some h)
    (hs : s.suite = some l) :
    reboot s = some
      { is_phenom := s.is_phenom
        pf := some (if s.count = 1 then dictUpdate s.kwargs c else s.kwargs)
        medium := none
        history := none
        suite := some l
        count := s.count
        timer := s.timer
        carryover := some c
        kwargs := if s.count = 1 then dictUpdate s.kwargs c else s.kwargs } := by
  by_cases h1 : s.count = 1
  · simp [reboot, h1, carryoverKwargsGet, hc, hp, hm, hh, hs, initG21]
  · simp [reboot, h1, hc, hp, hm, hh, hs, initG21]

/-- C8 witness: a concrete two-iteration state (`count = 2`, memoized
carryover holding the population-0 halo table instance 4) reboots to a
state with the same carryover entry, the same suite and count, and no
second kwargs merge. -/
theorem reboot_frame_witness :
    ∃ s', reboot
        { is_phenom := false
          pf := some []
          medium := some ⟨true, 7, [⟨true, 3, 4⟩]⟩
          history := some 9
          suite := some [5]
          count := 2
          timer := 1
          carryover := some [(CKey.hmf, 4)]
          kwargs := [(CKey.hmf, 4)] } = some s' ∧
      s'.carryover = some [(CKey.hmf, 4)] ∧
      s'.suite = some [5] ∧ s'.count = 2 ∧
      s'.kwargs = [(CKey.hmf, 4)] ∧
      s'.medium = none ∧ s'.history = none := by
  refine ⟨_, reboot_frame _ [(CKey.hmf, 4)] [5] [] ⟨true, 7, [⟨true, 3, 4⟩]⟩ 9
    rfl rfl rfl rfl rfl, rfl, rfl, rfl, by norm_num, rfl, rfl⟩

/-- C9: if the history output file already exists and `clobber` is
false, `save` raises the `IOError` and the file system — in particular
the pre-existing history file — is unchanged; with `clobber = True` (and
no suite/suffix conflict) the existing file is removed and replaced by
the new history data, with no error. -/
theorem save_overwrite_protection
    (clobber suiteNonempty : Bool) (sfx : Suffix)
    (histData pfData h0 : ℕ) (fs : FS)
    (hh : fs.hist = some h0) :
    (clobber = false →
      save clobber suiteNonempty sfx histData pfData fs
        = (fs, some SaveErr.ioError)) ∧
    (clobber = true → suiteNonempty = false →
      (save clobber suiteNonempty sfx histData pfData fs).1.hist
          = some histData ∧
      (save clobber suiteNonempty sfx histData pfData fs).2 = none) := by
  constructor
  · intro hcl
    subst hcl
    simp [save, hh]
  · intro hcl hsn
    subst hcl
    subst hsn
    by_cases hp : fs.params.isSome <;> simp [save, hh, hp]

/-- C9 witness: with both files present, `clobber=False` leaves the file
system untouched and raises, while `clobber=True` replaces the history
file content 1 by the new content 11. -/
theorem save_overwrite_protection_witness :
    save false false Suffix.pkl 11 22 ⟨some 1, some 2⟩
      = (⟨some 1, some 2⟩, some SaveErr.ioError) ∧
    (save true false Suffix.pkl 11 22 ⟨some 1, some 2⟩).1.hist = some 11 := by
  have h1 := save_overwrite_protection false false Suffix.pkl 11 22 1
    ⟨some 1, some 2⟩ rfl
  have h2 := save_overwrite_protection true false Suffix.pkl 11 22 1
    ⟨some 1, some 2⟩ rfl
  exact ⟨h1.1 rfl, (h2.2 rfl rfl).1⟩

/-- C10: the overwrite protection is asymmetric.  When only the
parameters file pre-exists and `clobber` is false (and the
suite/suffix guard does not fire), `save` raises nothing, writes the
history file, and leaves the pre-existing parameters file unchanged
(the `write_pf` flag is cleared instead of raising). -/
theorem save_params_asymmetry (suiteNonempty : Bool) (sfx : Suffix)
    (histData pfData p0 : ℕ) (fs : FS)
    (hh : fs.hist = none) (hp : fs.params = some p0)
    (hok : suiteNonempty = false ∨ sfx = Suffix.pkl) :
    save false suiteNonempty sfx histData pfData fs
      = (⟨some histData, some p0⟩, none) := by
  rcases hok with hok | hok
  · subst hok
    simp [save, hh, hp]
  · subst hok
    simp [save, hh, hp]

/-- C10 witness: history file absent, parameters file present with
content 2, `clobber=False`: no error, history written with content 11,
parameters file still holds content 2 (not the new 22). -/
theorem save_params_asymmetry_witness :
    save false false Suffix.pkl 11 22 ⟨none, some 2⟩
      = (⟨some 11, some 2⟩, none) :=
  save_params_asymmetry false Suffix.pkl 11 22 2 ⟨none, some 2⟩
    rfl rfl (Or.inl rfl)

end Ares
